import Mathlib

/-!
Verification of `src/tools/picnic-tools.ts` (mcp-picnic).

The development shallowly embeds the recipe-discovery, recipe-cache,
add-recipe-to-cart, checkout and pagination logic of the source file.
JavaScript numbers are idealised as rationals (`ℚ`) and integers (`ℤ`/`Nat`);
JSON payloads are an inductive tree `JValue`; external calls are made explicit
as a trace of `ExtCall` values, and responses of the external collaborator are
parameters of the embedded handlers.
-/

namespace Picnic

/-- A JSON-like value, the shape of the payloads the source traverses
(`extractRecipes` receives the parsed response of the meal-planner page). -/
inductive JValue where
  | jnull
  | jbool (b : Bool)
  | jnum (q : ℚ)
  | jstr (s : String)
  | jarr (elems : List JValue)
  | jobj (fields : List (String × JValue))

/-- JavaScript truthiness of a value (`null`, `false`, `0`, `""` are falsy;
objects and arrays are always truthy). -/
def jsTruthy : JValue → Bool
  | .jnull => false
  | .jbool b => b
  | .jnum q => decide (q ≠ 0)
  | .jstr s => decide (s ≠ "")
  | .jarr _ => true
  | .jobj _ => true

/-- Property access `obj.k` on a JS object: the value at key `k`, if present
(JSON objects have unique keys; absent keys give `undefined`, i.e. `none`). -/
def jsGet (fields : List (String × JValue)) (k : String) : Option JValue :=
  fields.lookup k

/-- Truthiness of a possibly-absent property (`undefined` is falsy). -/
def jsTruthyOpt : Option JValue → Bool
  | none => false
  | some v => jsTruthy v

/-- `Array.isArray` on a possibly-absent property. -/
def jsIsArrayOpt : Option JValue → Bool
  | some (.jarr _) => true
  | _ => false

/-- The shape predicate of `extractRecipes` (picnic-tools.ts:1006):
`rec.recipe_id && Array.isArray(rec.ingredients)` on an object node;
non-objects never match. -/
def isRecipeShaped : JValue → Bool
  | .jobj fields => jsTruthyOpt (jsGet fields "recipe_id") && jsIsArrayOpt (jsGet fields "ingredients")
  | _ => false

mutual
/-- Embedding of `extractRecipes` / its inner `recurse`
(picnic-tools.ts:999-1015): arrays are traversed element by element in order,
an object that satisfies the shape predicate is collected as a leaf (its
children are not visited), any other object has its values traversed in
enumeration order, scalars contribute nothing. -/
def extractRecipes : JValue → List JValue
  | .jnull => []
  | .jbool _ => []
  | .jnum _ => []
  | .jstr _ => []
  | .jarr elems => extractRecipesList elems
  | .jobj fields =>
      if jsTruthyOpt (jsGet fields "recipe_id") && jsIsArrayOpt (jsGet fields "ingredients") then
        [.jobj fields]
      else
        extractRecipesFields fields

/-- `node.forEach(recurse)` over an array's elements, in order. -/
def extractRecipesList : List JValue → List JValue
  | [] => []
  | v :: vs => extractRecipes v ++ extractRecipesList vs

/-- `Object.values(rec).forEach(recurse)` over an object's values, in
enumeration order. -/
def extractRecipesFields : List (String × JValue) → List JValue
  | [] => []
  | (_, v) :: fs => extractRecipes v ++ extractRecipesFields fs
end

/-- The children of a node, in traversal order: an array's elements, an
object's values; scalars have none. -/
def childList : JValue → List JValue
  | .jarr elems => elems
  | .jobj fields => fields.map Prod.snd
  | _ => []

/-- The subtree of `v` at a path of child indices, if the path exists. -/
def subtreeAt (v : JValue) : List Nat → Option JValue
  | [] => some v
  | i :: p =>
      match (childList v)[i]? with
      | some c => subtreeAt c p
      | none => none

/-- Whether the node of `v` at path `p` exists and is recipe-shaped. -/
def matchesAt (v : JValue) (p : List Nat) : Bool :=
  match subtreeAt v p with
  | some u => isRecipeShaped u
  | none => false

/-- `isPre p q`: path `p` is a (not necessarily proper) prefix of path `q`. -/
def isPre : List Nat → List Nat → Bool
  | [], _ => true
  | _ :: _, [] => false
  | i :: p, j :: q => i == j && isPre p q

/-- Strict depth-first (lexicographic) order on paths; a proper prefix is
strictly smaller. -/
def pathLt : List Nat → List Nat → Bool
  | [], [] => false
  | [], _ :: _ => true
  | _ :: _, [] => false
  | i :: p, j :: q => i < j || (i == j && pathLt p q)

mutual
/-- The paths at which `extractRecipes` collects nodes: the empty path on a
recipe-shaped node, otherwise the collected paths of each child prefixed with
that child's index. Arrays and non-matching objects recurse, scalars yield
nothing. -/
def outPos : JValue → List (List Nat)
  | .jnull => []
  | .jbool _ => []
  | .jnum _ => []
  | .jstr _ => []
  | .jarr elems => outPosList 0 elems
  | .jobj fields =>
      if isRecipeShaped (.jobj fields) then [[]] else outPosFields 0 fields

/-- Collected paths of the elements of an array, indices starting at `i`. -/
def outPosList : Nat → List JValue → List (List Nat)
  | _, [] => []
  | i, v :: vs => (outPos v).map (i :: ·) ++ outPosList (i + 1) vs

/-- Collected paths of the values of an object, indices starting at `i`. -/
def outPosFields : Nat → List (String × JValue) → List (List Nat)
  | _, [] => []
  | i, (_, v) :: fs => (outPos v).map (i :: ·) ++ outPosFields (i + 1) fs
end

/-! ### External calls

Every embedded handler returns, besides its result, the ordered trace of
calls it issued against the external Picnic API client. -/

/-- One call against the external collaborator. `getCart` and
`fetchMealPlanner` are reads; the others mutate external state. -/
inductive ExtCall where
  | getCart
  | fetchMealPlanner
  | addToCart (productId : String) (count : ℤ)
  | startCheckout (mts : ℤ) (state_token : String)
  | initiatePayment (order_id : String)
  | confirmOrder (order_id : String)
deriving DecidableEq

/-- Whether a call mutates external state (everything except the cart read and
the meal-planner page read). -/
def ExtCall.isWrite : ExtCall → Bool
  | .getCart => false
  | .fetchMealPlanner => false
  | _ => true

/-! ### Checkout (picnic-tools.ts:1173-1249) -/

/-- The `selected_slot` object of the cart response. -/
structure SelectedSlot where
  slot_id : Option String
  window_start : Option String
  window_end : Option String

/-- The fields of the shopping-cart response read by `picnic_checkout`.
`none` models an absent (`undefined`) field. -/
structure Cart where
  mts : Option ℤ
  state_token : Option String
  total_count : Option ℤ
  checkout_total_price : Option ℚ
  selected_slot : Option SelectedSlot

/-- The response of `POST /cart/checkout/start`; only `order_id` is read, the
whole value is attached raw to the step-failure result. -/
structure StartResp where
  order_id : Option String
deriving DecidableEq

/-- The `delivery_slot` object of the confirm response. -/
structure ConfirmSlot where
  window_start : Option String
  window_end : Option String
deriving DecidableEq

/-- The response of the confirm call, as read by `picnic_checkout`. -/
structure ConfirmResp where
  order_id : Option String
  total_price : Option ℚ
  total_count : Option ℤ
  delivery_slot : Option ConfirmSlot
deriving DecidableEq

/-- JS falsiness of a possibly-absent string field (`undefined` and `""`). -/
def jsFalsyStr : Option String → Bool
  | none => true
  | some s => decide (s = "")

/-- JS falsiness of a possibly-absent numeric field (`undefined` and `0`). -/
def jsFalsyNum : Option ℤ → Bool
  | none => true
  | some n => decide (n = 0)

/-- `cart.selected_slot?.slot_id` with optional chaining. -/
def Cart.slotId (cart : Cart) : Option String :=
  cart.selected_slot.bind SelectedSlot.slot_id

/-- `s.slice(0, 16)?.replace("T", " ")`: first occurrence of `'T'` becomes a
space (JS `String.replace` with a string pattern replaces only the first). -/
def replaceFirstT : List Char → List Char
  | [] => []
  | c :: cs => if c = 'T' then ' ' :: cs else c :: replaceFirstT cs

/-- The display form of an ISO-8601 timestamp used by `picnic_checkout`:
the first 16 characters with the (first) `'T'` replaced by a space. -/
def fmt16 (s : String) : String :=
  String.mk (replaceFirstT (s.toList.take 16))

/-- The value returned by the `picnic_checkout` handler: one of its three
error object shapes, or the confirmed-order summary. -/
inductive CheckoutResult where
  | errTokens (error : String)
  | errNoSlot (error : String)
  | errStart (error : String) (details : StartResp)
  | ok (order_id : Option String) (total_price : Option ℚ) (total_count : Option ℤ)
       (delivery_window : Option (Option String × Option String))
deriving DecidableEq

/-- Embedding of the `picnic_checkout` handler (picnic-tools.ts:1178-1248).
The external collaborator's responses (`cart`, `startResp`, `confirmResp`) are
parameters; the second component is the trace of external calls issued, in
order. Mirrors the source: read the cart; reject when `state_token` or `mts`
is falsy, then when `selected_slot?.slot_id` is falsy; start the checkout;
reject when the response's `order_id` is falsy, attaching the raw response;
initiate payment, confirm, and shape the confirm response. -/
def checkout (cart : Cart) (startResp : StartResp) (confirmResp : ConfirmResp) :
    CheckoutResult × List ExtCall :=
  match cart.state_token, cart.mts with
  | some st, some m =>
    if st = "" ∨ m = 0 then
      (.errTokens "Cart has no state_token or mts — is the cart empty?", [.getCart])
    else
      match cart.slotId with
      | none =>
          (.errNoSlot "No delivery slot selected. Use picnic_set_delivery_slot first.",
           [.getCart])
      | some sid =>
        if sid = "" then
          (.errNoSlot "No delivery slot selected. Use picnic_set_delivery_slot first.",
           [.getCart])
        else
          match startResp.order_id with
          | none =>
              (.errStart "Checkout start failed — no order_id returned" startResp,
               [.getCart, .startCheckout m st])
          | some oid =>
            if oid = "" then
              (.errStart "Checkout start failed — no order_id returned" startResp,
               [.getCart, .startCheckout m st])
            else
              (.ok confirmResp.order_id confirmResp.total_price confirmResp.total_count
                 (confirmResp.delivery_slot.map (fun ds =>
                    (ds.window_start.map fmt16, ds.window_end.map fmt16))),
               [.getCart, .startCheckout m st, .initiatePayment oid, .confirmOrder oid])
  | _, _ =>
      (.errTokens "Cart has no state_token or mts — is the cart empty?", [.getCart])

/-! ### Pagination (picnic-tools.ts:103-127 and 594-607) -/

/-- The `pagination` object both paginating handlers return. -/
structure Pagination where
  offset : Nat
  limit : Nat
  returned : Nat
  total : Nat
  hasMore : Bool
deriving DecidableEq

/-- The shared pagination logic of `picnic_search` and `picnic_get_deliveries`:
`allResults.slice(startIndex, startIndex + limit)` together with the
`pagination` metadata, where `hasMore = startIndex + limit < allResults.length`.
-/
def paginate {α : Type} (allResults : List α) (offset limit : Nat) :
    List α × Pagination :=
  let paginated := (allResults.drop offset).take limit
  (paginated,
   { offset := offset
     limit := limit
     returned := paginated.length
     total := allResults.length
     hasMore := decide (offset + limit < allResults.length) })

/-! ### Recipe data model (picnic-tools.ts:963-997) -/

/-- The `RecipeIngredient` interface. -/
structure RecipeIngredient where
  selling_unit_id : String
  name : String
  ingredient_type : String
  display_ingredient_quantity : ℚ
  display_unit_of_measurement : String
  selling_unit_quantity : ℚ
  availability_status : String
deriving DecidableEq

/-- The `PreparationInstruction` interface. -/
structure PreparationInstruction where
  header : String
  body : String
  type : String
deriving DecidableEq

/-- The `display_label` object of a recipe. -/
structure DisplayLabel where
  text : String
  text_color : String
  background_color : String
deriving DecidableEq

/-- A recipe image reference. -/
structure RecipeImage where
  image_id : String
  image_type : String
deriving DecidableEq

/-- The `Recipe` interface. -/
structure Recipe where
  recipe_id : String
  name : String
  description : String
  course : String
  kitchen : String
  is_vega_vegan : String
  recipe_type : String
  default_servings : ℚ
  minimum_servings : ℚ
  maximum_servings : ℚ
  serving_step : ℚ
  active_preparation_time_in_minutes : ℚ
  quality_cue : String
  display_label : Option DisplayLabel
  ingredients : List RecipeIngredient
  preparation_instructions : List PreparationInstruction
  images : Option (List RecipeImage)
deriving DecidableEq

/-! ### Recipe cache and `fetchRecipes` (picnic-tools.ts:1017-1036) -/

/-- The process-wide recipe cache: `recipeCacheData` (`null` at start) and
`recipeCacheTimestamp` (milliseconds). -/
structure RecipeCache where
  data : Option (List Recipe)
  timestamp : ℤ
deriving DecidableEq

/-- `RECIPE_CACHE_TTL_MS = 5 * 60 * 1000`. -/
def RECIPE_CACHE_TTL_MS : ℤ := 5 * 60 * 1000

/-- The freshness test of `fetchRecipes`:
`recipeCacheData && now - recipeCacheTimestamp < RECIPE_CACHE_TTL_MS`. -/
def cacheFresh (cache : RecipeCache) (now : ℤ) : Bool :=
  cache.data.isSome && decide (now - cache.timestamp < RECIPE_CACHE_TTL_MS)

/-- Embedding of `fetchRecipes`: given the cache state, the current time, and
the recipe sequence a fetch of the meal-planner page would discover
(`extractRecipes` applied to the response), it returns the served recipes, the
cache state afterwards, and the trace of external fetches.  A fresh cache is
served as-is with no fetch; otherwise one fetch is issued and the cache is
replaced wholesale with the discovered sequence and the current timestamp. -/
def fetchRecipes (cache : RecipeCache) (now : ℤ) (discovered : List Recipe) :
    List Recipe × RecipeCache × List ExtCall :=
  match cache.data with
  | some cached =>
      if now - cache.timestamp < RECIPE_CACHE_TTL_MS then
        (cached, cache, [])
      else
        (discovered, { data := some discovered, timestamp := now }, [.fetchMealPlanner])
  | none =>
      (discovered, { data := some discovered, timestamp := now }, [.fetchMealPlanner])

/-! ### `picnic_get_recipes` (picnic-tools.ts:1039-1063) -/

/-- The compact per-recipe summary returned by `picnic_get_recipes`. -/
structure RecipeSummary where
  recipe_id : String
  name : String
  description : String
  preparation_time_in_minutes : ℚ
  default_servings : ℚ
  course : String
  kitchen : String
  is_vega_vegan : String
  recipe_type : String
  quality_cue : String
  label : Option String
  ingredient_count : Nat
deriving DecidableEq

/-- The summary view of one recipe. -/
def summarize (r : Recipe) : RecipeSummary :=
  { recipe_id := r.recipe_id
    name := r.name
    description := r.description
    preparation_time_in_minutes := r.active_preparation_time_in_minutes
    default_servings := r.default_servings
    course := r.course
    kitchen := r.kitchen
    is_vega_vegan := r.is_vega_vegan
    recipe_type := r.recipe_type
    quality_cue := r.quality_cue
    label := r.display_label.map DisplayLabel.text
    ingredient_count := r.ingredients.length }

/-- Embedding of the `picnic_get_recipes` handler: fetch (or serve the cached)
recipes and map each to its summary. -/
def listRecipes (cache : RecipeCache) (now : ℤ) (discovered : List Recipe) :
    (List RecipeSummary × Nat) × RecipeCache × List ExtCall :=
  let (recipes, cache1, calls) := fetchRecipes cache now discovered
  ((recipes.map summarize, recipes.length), cache1, calls)

/-! ### `picnic_get_recipe_details` (picnic-tools.ts:1066-1113) -/

/-- The ingredient view inside the detail response. -/
structure IngredientView where
  selling_unit_id : String
  name : String
  ingredient_type : String
  quantity : ℚ
  unit : String
  selling_unit_quantity : ℚ
  availability : String
deriving DecidableEq

/-- The full detail view returned by `picnic_get_recipe_details`. -/
structure RecipeDetail where
  recipe_id : String
  name : String
  description : String
  course : String
  kitchen : String
  is_vega_vegan : String
  recipe_type : String
  default_servings : ℚ
  minimum_servings : ℚ
  maximum_servings : ℚ
  serving_step : ℚ
  preparation_time_in_minutes : ℚ
  quality_cue : String
  label : Option String
  ingredients : List IngredientView
  preparation_instructions : List PreparationInstruction
  images : Option (List String)
deriving DecidableEq

/-- The result of `picnic_get_recipe_details`: the not-found error object or
the detail view. -/
inductive DetailsResult where
  | notFound (error : String) (suggestion : String)
  | ok (detail : RecipeDetail)
deriving DecidableEq

/-- The detail view of one recipe, as shaped by the handler. -/
def detailView (r : Recipe) : RecipeDetail :=
  { recipe_id := r.recipe_id
    name := r.name
    description := r.description
    course := r.course
    kitchen := r.kitchen
    is_vega_vegan := r.is_vega_vegan
    recipe_type := r.recipe_type
    default_servings := r.default_servings
    minimum_servings := r.minimum_servings
    maximum_servings := r.maximum_servings
    serving_step := r.serving_step
    preparation_time_in_minutes := r.active_preparation_time_in_minutes
    quality_cue := r.quality_cue
    label := r.display_label.map DisplayLabel.text
    ingredients := r.ingredients.map (fun i =>
      { selling_unit_id := i.selling_unit_id
        name := i.name
        ingredient_type := i.ingredient_type
        quantity := i.display_ingredient_quantity
        unit := i.display_unit_of_measurement
        selling_unit_quantity := i.selling_unit_quantity
        availability := i.availability_status })
    preparation_instructions := r.preparation_instructions
    images := r.images.map (List.map RecipeImage.image_id) }

/-- The not-found error message interpolating the requested id
(`Recipe '${args.recipe_id}' not found`). -/
def recipeNotFoundMsg (recipe_id : String) : String :=
  "Recipe '" ++ recipe_id ++ "' not found"

/-- The remediation hint attached to a recipe not-found result. -/
def recipeNotFoundHint : String :=
  "Use picnic_get_recipes to find valid recipe IDs."

/-- Embedding of the `picnic_get_recipe_details` handler: fetch (or serve the
cached) recipes, locate the one with the requested id, and return the
not-found object or the detail view. -/
def getRecipeDetails (cache : RecipeCache) (now : ℤ) (discovered : List Recipe)
    (recipe_id : String) : DetailsResult × RecipeCache × List ExtCall :=
  let (recipes, cache1, calls) := fetchRecipes cache now discovered
  match recipes.find? (fun r => r.recipe_id == recipe_id) with
  | none => (.notFound (recipeNotFoundMsg recipe_id) recipeNotFoundHint, cache1, calls)
  | some recipe => (.ok (detailView recipe), cache1, calls)

/-! ### `picnic_add_recipe_to_cart` (picnic-tools.ts:1116-1170) -/

/-- The success shape returned by `picnic_add_recipe_to_cart`. -/
structure AddRecipeResult where
  recipe_name : String
  servings : ℚ
  added : List (String × ℤ)
  skipped_cupboard : List String
  unavailable : List String
deriving DecidableEq

/-- The outcome of `picnic_add_recipe_to_cart`: the not-found object, a fault
propagated out of the per-ingredient loop (the source has no try/catch around
`addProductToShoppingCart`, so a rejection aborts the handler; the fault is
tagged with the failing call), or the success shape. -/
inductive AddRecipeOutcome where
  | notFound (error : String) (suggestion : String)
  | fault (selling_unit_id : String) (count : ℤ)
  | ok (result : AddRecipeResult)
deriving DecidableEq

/-- The per-ingredient loop of the handler (picnic-tools.ts:1146-1160), run
against an external add collaborator `addOk` (`addOk id q = false` models the
add call rejecting).  Returns the three result lists on success or the
propagated fault, together with the add calls issued in order: a `CUPBOARD`
ingredient is recorded under `skipped_cupboard` with no call, a non-`AVAILABLE`
ingredient under `unavailable` with no call, any other ingredient triggers one
add call with quantity `Math.ceil(selling_unit_quantity * scale)`; a rejected
call aborts the loop, discarding the lists. -/
def addLoop (addOk : String → ℤ → Bool) (scale : ℚ) :
    List RecipeIngredient →
      Except (String × ℤ) (List (String × ℤ) × List String × List String) × List ExtCall
  | [] => (.ok ([], [], []), [])
  | ing :: rest =>
    if ing.ingredient_type = "CUPBOARD" then
      match addLoop addOk scale rest with
      | (.ok (a, c, u), calls) => (.ok (a, ing.name :: c, u), calls)
      | (.error e, calls) => (.error e, calls)
    else if ing.availability_status ≠ "AVAILABLE" then
      match addLoop addOk scale rest with
      | (.ok (a, c, u), calls) => (.ok (a, c, ing.name :: u), calls)
      | (.error e, calls) => (.error e, calls)
    else
      let quantity : ℤ := ⌈ing.selling_unit_quantity * scale⌉
      if addOk ing.selling_unit_id quantity then
        match addLoop addOk scale rest with
        | (.ok (a, c, u), calls) =>
            (.ok ((ing.name, quantity) :: a, c, u), .addToCart ing.selling_unit_id quantity :: calls)
        | (.error e, calls) => (.error e, .addToCart ing.selling_unit_id quantity :: calls)
      else
        (.error (ing.selling_unit_id, quantity), [.addToCart ing.selling_unit_id quantity])

/-- Embedding of the `picnic_add_recipe_to_cart` handler: fetch (or serve the
cached) recipes, locate the recipe, resolve `servings` (defaulting to the
recipe's `default_servings`), compute `scale = servings / default_servings`,
and run the per-ingredient loop. -/
def addRecipeToCart (cache : RecipeCache) (now : ℤ) (discovered : List Recipe)
    (recipe_id : String) (servingsArg : Option ℚ) (addOk : String → ℤ → Bool) :
    AddRecipeOutcome × RecipeCache × List ExtCall :=
  let (recipes, cache1, fetchCalls) := fetchRecipes cache now discovered
  match recipes.find? (fun r => r.recipe_id == recipe_id) with
  | none => (.notFound (recipeNotFoundMsg recipe_id) recipeNotFoundHint, cache1, fetchCalls)
  | some recipe =>
    let servings := servingsArg.getD recipe.default_servings
    let scale := servings / recipe.default_servings
    match addLoop addOk scale recipe.ingredients with
    | (.ok (added, cupboard, unavail), calls) =>
        (.ok { recipe_name := recipe.name
               servings := servings
               added := added
               skipped_cupboard := cupboard
               unavailable := unavail },
         cache1, fetchCalls ++ calls)
    | (.error (id, q), calls) => (.fault id q, cache1, fetchCalls ++ calls)

/-! ### `extractRecipes` over a possibly-cyclic heap

A JavaScript value is a reference into a heap of nodes, and nothing in the
source guards the recursion of `extractRecipes` against reference cycles: the
traversal has no depth bound and no visited set.  To reason about cyclic
payloads (which the inductive `JValue` cannot represent) the same recursion is
embedded over an explicit store of nodes addressed by index, with an explicit
recursion budget: `none` means the budget was exhausted, so an input on which
every budget is exhausted is one on which the source recursion never
terminates. -/

/-- A heap node: scalars, or an array/object whose children are node
references (indices into the store). -/
inductive GNode where
  | gnull
  | gbool (b : Bool)
  | gnum (q : ℚ)
  | gstr (s : String)
  | garr (elems : List Nat)
  | gobj (fields : List (String × Nat))
deriving DecidableEq

/-- JS truthiness of a referenced node (a dangling reference is `undefined`,
hence falsy). -/
def gTruthy (store : List GNode) (i : Nat) : Bool :=
  match store[i]? with
  | none => false
  | some .gnull => false
  | some (.gbool b) => b
  | some (.gnum q) => decide (q ≠ 0)
  | some (.gstr s) => decide (s ≠ "")
  | some (.garr _) => true
  | some (.gobj _) => true

/-- `Array.isArray` of a referenced node. -/
def gIsArray (store : List GNode) (i : Nat) : Bool :=
  match store[i]? with
  | some (.garr _) => true
  | _ => false

/-- The shape predicate of `extractRecipes` on a heap object node. -/
def gRecipeShaped (store : List GNode) (fields : List (String × Nat)) : Bool :=
  (match fields.lookup "recipe_id" with
   | some i => gTruthy store i
   | none => false) &&
  (match fields.lookup "ingredients" with
   | some i => gIsArray store i
   | none => false)

mutual
/-- The recursion of `extractRecipes` over the heap, with recursion budget
`fuel` (each recursive descent consumes one unit; siblings share the budget of
their depth).  Returns the collected node references, or `none` when the
budget is exhausted. -/
def extractG (store : List GNode) : Nat → Nat → Option (List Nat)
  | 0, _ => none
  | fuel + 1, i =>
      match store[i]? with
      | none => some []
      | some (.garr elems) => extractGList store fuel elems
      | some (.gobj fields) =>
          if gRecipeShaped store fields then some [i]
          else extractGList store fuel (fields.map Prod.snd)
      | some _ => some []

/-- The traversal of a list of sibling references at one depth. -/
def extractGList (store : List GNode) : Nat → List Nat → Option (List Nat)
  | _, [] => some []
  | fuel, j :: js =>
      match extractG store fuel j with
      | none => none
      | some a =>
          match extractGList store fuel js with
          | none => none
          | some b => some (a ++ b)
end

/-- The traversal starting at node `i` exhausts every recursion budget: the
unguarded source recursion run on this store never terminates. -/
def divergesOn (store : List GNode) (i : Nat) : Prop :=
  ∀ fuel, extractG store fuel i = none

/-- A one-node payload containing a reference cycle: an object whose single
value is the object itself. -/
def cyclicStore : List GNode := [.gobj [("self", 0)]]

/-! ### Reference views of the per-ingredient loop -/

/-- Whether a call is the payment initiation or the order confirmation. -/
def isPaymentOrConfirm : ExtCall → Bool
  | .initiatePayment _ => true
  | .confirmOrder _ => true
  | _ => false

/-- The ingredients that trigger an add call (neither `CUPBOARD` nor
unavailable), in source order, as `(name, selling_unit_id, quantity)` with the
resolved quantity. -/
def effectiveAdds (scale : ℚ) (ings : List RecipeIngredient) :
    List (String × String × ℤ) :=
  ings.filterMap (fun i =>
    if i.ingredient_type = "CUPBOARD" then none
    else if i.availability_status ≠ "AVAILABLE" then none
    else some (i.name, i.selling_unit_id, ⌈i.selling_unit_quantity * scale⌉))

/-- The names of the `CUPBOARD` ingredients, in source order. -/
def cupboardNames (ings : List RecipeIngredient) : List String :=
  (ings.filter (fun i => i.ingredient_type == "CUPBOARD")).map RecipeIngredient.name

/-- The names of the non-`CUPBOARD` ingredients whose availability is not
`AVAILABLE`, in source order. -/
def unavailableNames (ings : List RecipeIngredient) : List String :=
  (ings.filter (fun i =>
    i.ingredient_type != "CUPBOARD" && i.availability_status != "AVAILABLE")).map
    RecipeIngredient.name

/-! ## Theorems -/

/-- The pagination slice returns exactly the window `[offset, offset+limit)`
of the full result, clipped to its length. -/
theorem paginate_getElem {α : Type} (xs : List α) (offset limit i : Nat) :
    ((paginate xs offset limit).1)[i]? =
      if offset + i < min (offset + limit) xs.length then xs[offset + i]? else none := by
  simp only [paginate]
  by_cases hi : i < limit
  · rw [List.getElem?_take_of_lt hi, List.getElem?_drop]
    by_cases hlen : offset + i < xs.length
    · rw [if_pos (by omega)]
    · rw [if_neg (by omega), List.getElem?_eq_none (by omega)]
  · rw [List.getElem?_eq_none (by simp; omega), if_neg (by omega)]

/-- C9: for every full result list of length `total`, every `offset ≥ 0` and
every `limit ≥ 1`, the pagination slice returns the elements at indices
`offset` through `min (offset + limit) total - 1` and reports
`hasMore = (offset + limit < total)`; in particular with 23 results,
`offset = 10, limit = 10` yields 10 items with `hasMore = true` and
`offset = 20, limit = 10` yields 3 items with `hasMore = false`. -/
theorem pagination_slices_window {α : Type} (xs : List α) (offset limit : Nat)
    (hlim : 1 ≤ limit) :
    (∀ i : Nat, ((paginate xs offset limit).1)[i]? =
        if offset + i < min (offset + limit) xs.length then xs[offset + i]? else none)
    ∧ ((paginate xs offset limit).1).length = min limit (xs.length - offset)
    ∧ ((paginate xs offset limit).2).hasMore = decide (offset + limit < xs.length)
    ∧ ((paginate (List.range 23) 10 10).1.length = 10
        ∧ (paginate (List.range 23) 10 10).2.hasMore = true)
    ∧ ((paginate (List.range 23) 20 10).1.length = 3
        ∧ (paginate (List.range 23) 20 10).2.hasMore = false) := by
  refine ⟨fun i => paginate_getElem xs offset limit i, ?_, rfl, by decide, by decide⟩
  simp [paginate]

/-- Witness for C9 at the claim's own concrete instance. -/
theorem pagination_slices_window_witness :
    1 ≤ 10 ∧
    ((∀ i : Nat, ((paginate (List.range 23) 10 10).1)[i]? =
        if 10 + i < min (10 + 10) (List.range 23).length then (List.range 23)[10 + i]? else none)
    ∧ ((paginate (List.range 23) 10 10).1).length = min 10 ((List.range 23).length - 10)
    ∧ ((paginate (List.range 23) 10 10).2).hasMore = decide (10 + 10 < (List.range 23).length)
    ∧ ((paginate (List.range 23) 10 10).1.length = 10
        ∧ (paginate (List.range 23) 10 10).2.hasMore = true)
    ∧ ((paginate (List.range 23) 20 10).1.length = 3
        ∧ (paginate (List.range 23) 20 10).2.hasMore = false)) :=
  ⟨by decide, pagination_slices_window (List.range 23) 10 10 (by decide)⟩

/-- A cart with no tokens and no slot (the empty-cart response). -/
def emptyCart : Cart :=
  { mts := none, state_token := none, total_count := none,
    checkout_total_price := none, selected_slot := none }

/-- A cart with valid tokens and a selected slot (the happy-path response). -/
def fullCart : Cart :=
  { mts := some 5, state_token := some "tok", total_count := some 7,
    checkout_total_price := some 23.5,
    selected_slot := some { slot_id := some "s1",
                            window_start := some "2024-01-01T10:00:00Z",
                            window_end := some "2024-01-01T11:00:00Z" } }

/-- The happy-path start response of the spec's checkout example. -/
def startO1 : StartResp := { order_id := some "O1" }

/-- The happy-path confirm response of the spec's checkout example. -/
def confirmO1 : ConfirmResp :=
  { order_id := some "O1", total_price := some 23.5, total_count := some 7,
    delivery_slot := some { window_start := some "2024-01-01T10:00:00Z",
                            window_end := some "2024-01-01T11:00:00Z" } }

/-- C10: the required-token check of `checkout` uses falsiness, not presence:
a cart whose `mts` is present but `0`, or whose `state_token` is present but
empty, gets the same `empty or stale cart` error as one whose fields are
absent, with no external write call issued. -/
theorem checkout_token_falsiness (cart : Cart) (startResp : StartResp)
    (confirmResp : ConfirmResp)
    (h : cart.mts = some 0 ∨ cart.state_token = some "") :
    (checkout cart startResp confirmResp).1 =
      .errTokens "Cart has no state_token or mts — is the cart empty?"
    ∧ ((checkout cart startResp confirmResp).2).filter ExtCall.isWrite = []
    ∧ checkout cart startResp confirmResp =
        checkout { cart with mts := none, state_token := none } startResp confirmResp := by
  rcases h with h | h
  · rcases hst : cart.state_token with _ | st <;>
      simp [checkout, h, hst, ExtCall.isWrite]
  · rcases hm : cart.mts with _ | m <;>
      simp [checkout, h, hm, ExtCall.isWrite]

/-- Witness for C10: a cart whose `mts` is present but zero. -/
theorem checkout_token_falsiness_witness :
    (({ fullCart with mts := some 0 } : Cart).mts = some 0
      ∨ ({ fullCart with mts := some 0 } : Cart).state_token = some "")
    ∧ ((checkout { fullCart with mts := some 0 } startO1 confirmO1).1 =
        .errTokens "Cart has no state_token or mts — is the cart empty?"
      ∧ ((checkout { fullCart with mts := some 0 } startO1 confirmO1).2).filter
          ExtCall.isWrite = []
      ∧ checkout { fullCart with mts := some 0 } startO1 confirmO1 =
          checkout { { fullCart with mts := some 0 } with
                      mts := none, state_token := none } startO1 confirmO1) :=
  ⟨Or.inl rfl,
   checkout_token_falsiness { fullCart with mts := some 0 } startO1 confirmO1 (Or.inl rfl)⟩

/-- C2: `checkout` fails safely on invalid state: a cart missing a token gets
the precondition error with zero external writes; a cart with no selected
slot gets a structured precondition error with zero external writes; and a
start response with no order id gets the step-failure error carrying the raw
response, with no payment-initiation or confirmation call. -/
theorem checkout_fails_safely (cart : Cart) (startResp : StartResp)
    (confirmResp : ConfirmResp) :
    ((cart.state_token = none ∨ cart.mts = none) →
      (checkout cart startResp confirmResp).1 =
        .errTokens "Cart has no state_token or mts — is the cart empty?"
      ∧ ((checkout cart startResp confirmResp).2).filter ExtCall.isWrite = [])
    ∧ (cart.slotId = none →
      ((checkout cart startResp confirmResp).1 =
          .errTokens "Cart has no state_token or mts — is the cart empty?"
        ∨ (checkout cart startResp confirmResp).1 =
          .errNoSlot "No delivery slot selected. Use picnic_set_delivery_slot first.")
      ∧ ((checkout cart startResp confirmResp).2).filter ExtCall.isWrite = [])
    ∧ (jsFalsyStr cart.state_token = false → jsFalsyNum cart.mts = false →
       jsFalsyStr cart.slotId = false → startResp.order_id = none →
      (checkout cart startResp confirmResp).1 =
        .errStart "Checkout start failed — no order_id returned" startResp
      ∧ ((checkout cart startResp confirmResp).2).filter isPaymentOrConfirm = []) := by
  refine ⟨?_, ?_, ?_⟩
  · rintro (h | h)
    · rcases hm : cart.mts with _ | m <;>
        simp [checkout, h, hm, ExtCall.isWrite]
    · rcases hst : cart.state_token with _ | st <;>
        simp [checkout, h, hst, ExtCall.isWrite]
  · intro h2
    rcases hst : cart.state_token with _ | st
    · simp [checkout, hst, ExtCall.isWrite]
    · rcases hm : cart.mts with _ | m
      · simp [checkout, hst, hm, ExtCall.isWrite]
      · by_cases hif : st = "" ∨ m = 0 <;>
          simp [checkout, hst, hm, hif, h2, ExtCall.isWrite]
  · intro h1 h2 h3 h4
    rcases hst : cart.state_token with _ | st
    · rw [hst] at h1; simp [jsFalsyStr] at h1
    rcases hm : cart.mts with _ | m
    · rw [hm] at h2; simp [jsFalsyNum] at h2
    rcases hsid : cart.slotId with _ | sid
    · rw [hsid] at h3; simp [jsFalsyStr] at h3
    rw [hst] at h1; rw [hm] at h2; rw [hsid] at h3
    simp [jsFalsyStr] at h1
    simp [jsFalsyNum] at h2
    simp [jsFalsyStr] at h3
    simp [checkout, hst, hm, hsid, h1, h2, h3, h4, isPaymentOrConfirm]

/-- Witness for C2: the empty cart (no tokens, no slot). -/
theorem checkout_fails_safely_witness :
    (emptyCart.state_token = none ∨ emptyCart.mts = none)
    ∧ ((checkout emptyCart startO1 confirmO1).1 =
        .errTokens "Cart has no state_token or mts — is the cart empty?"
      ∧ ((checkout emptyCart startO1 confirmO1).2).filter ExtCall.isWrite = []) :=
  ⟨Or.inl rfl, (checkout_fails_safely emptyCart startO1 confirmO1).1 (Or.inl rfl)⟩

/-- C8: on the happy path `checkout` reports the confirm response's
`order_id`, `total_price` and `total_count` unchanged, and the delivery
window with both timestamps truncated to their first 16 characters with `'T'`
replaced by a space (`"2024-01-01T10:00:00Z"` becomes `"2024-01-01 10:00"`),
after issuing the start, payment-initiation and confirmation calls in order.
-/
theorem checkout_happy_path (cart : Cart) (startResp : StartResp)
    (confirmResp : ConfirmResp) (st : String) (m : ℤ) (sid oid : String)
    (hst : cart.state_token = some st) (hstne : st ≠ "")
    (hm : cart.mts = some m) (hmne : m ≠ 0)
    (hsid : cart.slotId = some sid) (hsidne : sid ≠ "")
    (hoid : startResp.order_id = some oid) (hoidne : oid ≠ "") :
    checkout cart startResp confirmResp =
      (.ok confirmResp.order_id confirmResp.total_price confirmResp.total_count
         (confirmResp.delivery_slot.map (fun ds =>
            (ds.window_start.map fmt16, ds.window_end.map fmt16))),
       [.getCart, .startCheckout m st, .initiatePayment oid, .confirmOrder oid])
    ∧ (∀ s : String, fmt16 s = String.mk (replaceFirstT (s.toList.take 16)))
    ∧ fmt16 "2024-01-01T10:00:00Z" = "2024-01-01 10:00"
    ∧ fmt16 "2024-01-01T11:00:00Z" = "2024-01-01 11:00" := by
  refine ⟨?_, fun _ => rfl, by decide, by decide⟩
  simp [checkout, hst, hm, hsid, hoid, hstne, hmne, hsidne, hoidne]

/-- Witness for C8 at the spec's checkout example: order `O1`, total price
23.5, total count 7, window `2024-01-01 10:00` to `2024-01-01 11:00`. -/
theorem checkout_happy_path_witness :
    (fullCart.state_token = some "tok" ∧ "tok" ≠ ""
      ∧ fullCart.mts = some 5 ∧ (5 : ℤ) ≠ 0
      ∧ fullCart.slotId = some "s1" ∧ "s1" ≠ ""
      ∧ startO1.order_id = some "O1" ∧ "O1" ≠ "")
    ∧ (checkout fullCart startO1 confirmO1 =
        (.ok confirmO1.order_id confirmO1.total_price confirmO1.total_count
           (confirmO1.delivery_slot.map (fun ds =>
              (ds.window_start.map fmt16, ds.window_end.map fmt16))),
         [.getCart, .startCheckout 5 "tok", .initiatePayment "O1", .confirmOrder "O1"])
      ∧ (∀ s : String, fmt16 s = String.mk (replaceFirstT (s.toList.take 16)))
      ∧ fmt16 "2024-01-01T10:00:00Z" = "2024-01-01 10:00"
      ∧ fmt16 "2024-01-01T11:00:00Z" = "2024-01-01 11:00")
    ∧ checkout fullCart startO1 confirmO1 =
        (.ok (some "O1") (some 23.5) (some 7)
           (some (some "2024-01-01 10:00", some "2024-01-01 11:00")),
         [.getCart, .startCheckout 5 "tok", .initiatePayment "O1", .confirmOrder "O1"]) :=
  ⟨⟨rfl, by decide, rfl, by decide, rfl, by decide, rfl, by decide⟩,
   checkout_happy_path fullCart startO1 confirmO1 "tok" 5 "s1" "O1"
     rfl (by decide) rfl (by decide) rfl (by decide) rfl (by decide),
   by rfl⟩

/-- Every call issued by the per-ingredient loop is an add-to-cart call. -/
theorem addLoop_calls_are_adds (addOk : String → ℤ → Bool) (scale : ℚ)
    (ings : List RecipeIngredient) :
    ∀ c ∈ (addLoop addOk scale ings).2, ∃ id q, c = ExtCall.addToCart id q := by
  induction ings with
  | nil => simp [addLoop]
  | cons ing rest ih =>
    rcases h : addLoop addOk scale rest with ⟨res, calls⟩
    rw [addLoop, h]
    rw [h] at ih
    by_cases h1 : ing.ingredient_type = "CUPBOARD"
    · rw [if_pos h1]
      rcases res with e | ⟨a, c, u⟩ <;> exact ih
    · rw [if_neg h1]
      by_cases h2 : ing.availability_status ≠ "AVAILABLE"
      · rw [if_pos h2]
        rcases res with e | ⟨a, c, u⟩ <;> exact ih
      · rw [if_neg h2]
        by_cases h3 : addOk ing.selling_unit_id ⌈ing.selling_unit_quantity * scale⌉ = true
        · rw [if_pos h3]
          rcases res with e | ⟨a, c, u⟩ <;> intro x hx <;>
            rcases List.mem_cons.mp hx with rfl | hx'
          · exact ⟨_, _, rfl⟩
          · exact ih x hx'
          · exact ⟨_, _, rfl⟩
          · exact ih x hx'
        · rw [if_neg h3]
          rcases res with e | ⟨a, c, u⟩ <;> intro x hx <;>
            obtain rfl := List.mem_singleton.mp hx <;> exact ⟨_, _, rfl⟩

/-- C4: the cache is fresh exactly when an entry exists and the elapsed time
since its timestamp is strictly below five minutes; a fresh cache is served
with no external fetch, a stale or absent cache triggers exactly one fetch
and is replaced wholesale with the discovered sequence and the current
timestamp; each of the three recipe operations issues exactly these fetches.
-/
theorem recipe_cache_freshness (cache : RecipeCache) (now : ℤ) (discovered : List Recipe) :
    (cacheFresh cache now = true ↔
      cache.data.isSome = true ∧ now - cache.timestamp < 5 * 60 * 1000)
    ∧ (∀ cached, cache.data = some cached → now - cache.timestamp < RECIPE_CACHE_TTL_MS →
        fetchRecipes cache now discovered = (cached, cache, []))
    ∧ (cacheFresh cache now = false →
        fetchRecipes cache now discovered =
          (discovered, { data := some discovered, timestamp := now }, [.fetchMealPlanner]))
    ∧ ((fetchRecipes cache now discovered).2.2).count .fetchMealPlanner =
        (if cacheFresh cache now then 0 else 1)
    ∧ ((listRecipes cache now discovered).2.2 = (fetchRecipes cache now discovered).2.2)
    ∧ (∀ recipe_id, (getRecipeDetails cache now discovered recipe_id).2.2 =
        (fetchRecipes cache now discovered).2.2)
    ∧ (∀ recipe_id servingsArg addOk,
        ((addRecipeToCart cache now discovered recipe_id servingsArg addOk).2.2).count
            .fetchMealPlanner =
          (if cacheFresh cache now then 0 else 1)) := by
  have hfetch : ((fetchRecipes cache now discovered).2.2).count .fetchMealPlanner =
      (if cacheFresh cache now then 0 else 1) := by
    rcases hd : cache.data with _ | cached <;>
      simp [fetchRecipes, cacheFresh, hd, RECIPE_CACHE_TTL_MS]
    split <;> simp
  refine ⟨?_, ?_, ?_, hfetch, ?_, ?_, ?_⟩
  · rcases hd : cache.data with _ | cached <;>
      simp [cacheFresh, hd, RECIPE_CACHE_TTL_MS]
  · intro cached hd hlt
    simp [fetchRecipes, hd, hlt]
  · intro hstale
    rcases hd : cache.data with _ | cached
    · simp [fetchRecipes, hd]
    · simp [cacheFresh, hd] at hstale
      simp [fetchRecipes, hd, hstale]
  · simp [listRecipes]
  · intro recipe_id
    simp only [getRecipeDetails]
    split <;> rfl
  · intro recipe_id servingsArg addOk
    simp only [addRecipeToCart]
    rcases hfind : ((fetchRecipes cache now discovered).1).find?
        (fun r => r.recipe_id == recipe_id) with _ | recipe
    · simpa [hfind] using hfetch
    · simp only [hfind]
      have hcalls := addLoop_calls_are_adds addOk
        ((servingsArg.getD recipe.default_servings) / recipe.default_servings)
        recipe.ingredients
      rcases hloop : addLoop addOk
          ((servingsArg.getD recipe.default_servings) / recipe.default_servings)
          recipe.ingredients with ⟨res, calls⟩
      rw [hloop] at hcalls
      have hcnt : calls.count ExtCall.fetchMealPlanner = 0 := by
        rw [List.count_eq_zero]
        intro hc
        obtain ⟨id, q, hEq⟩ := hcalls _ hc
        exact ExtCall.noConfusion hEq
      rcases res with e | ⟨a, c, u⟩ <;>
        simp [List.count_append, hcnt, hfetch]

/-- Witness for C4: a fresh cache (5-minute window not yet elapsed) is served
as-is with no external fetch. -/
theorem recipe_cache_freshness_witness :
    ((({ data := some [], timestamp := 0 } : RecipeCache).data = some [])
      ∧ (1000 : ℤ) - ({ data := some [], timestamp := 0 } : RecipeCache).timestamp <
          RECIPE_CACHE_TTL_MS)
    ∧ fetchRecipes { data := some [], timestamp := 0 } 1000 [] =
        ([], { data := some [], timestamp := 0 }, []) :=
  ⟨⟨rfl, by decide⟩,
   (recipe_cache_freshness { data := some [], timestamp := 0 } 1000 []).2.1 [] rfl (by decide)⟩

/-- C7: a recipe id absent from the (freshly served) cached sequence makes
`picnic_get_recipe_details` return the structured not-found result carrying
the requested id and the hint to use `picnic_get_recipes`, as a value, with
no external write call; `picnic_add_recipe_to_cart` behaves identically, in
particular it issues no add-to-cart call. -/
theorem recipe_not_found (cache : RecipeCache) (now : ℤ) (discovered : List Recipe)
    (recipe_id : String)
    (habsent : ∀ r ∈ (fetchRecipes cache now discovered).1, r.recipe_id ≠ recipe_id) :
    (getRecipeDetails cache now discovered recipe_id).1 =
      .notFound ("Recipe '" ++ recipe_id ++ "' not found")
        "Use picnic_get_recipes to find valid recipe IDs."
    ∧ ((getRecipeDetails cache now discovered recipe_id).2.2).filter ExtCall.isWrite = []
    ∧ (∀ servingsArg addOk,
        (addRecipeToCart cache now discovered recipe_id servingsArg addOk).1 =
          .notFound ("Recipe '" ++ recipe_id ++ "' not found")
            "Use picnic_get_recipes to find valid recipe IDs."
        ∧ ((addRecipeToCart cache now discovered recipe_id servingsArg addOk).2.2).filter
            ExtCall.isWrite = []) := by
  have hfind : ((fetchRecipes cache now discovered).1).find?
      (fun r => r.recipe_id == recipe_id) = none := by
    rw [List.find?_eq_none]
    intro r hr
    simpa using habsent r hr
  have hreads : ((fetchRecipes cache now discovered).2.2).filter ExtCall.isWrite = [] := by
    rcases hd : cache.data with _ | cached <;>
      simp [fetchRecipes, hd, ExtCall.isWrite]
    split <;> simp [ExtCall.isWrite]
  refine ⟨?_, ?_, ?_⟩
  · simp [getRecipeDetails, hfind, recipeNotFoundMsg, recipeNotFoundHint]
  · simpa [getRecipeDetails, hfind] using hreads
  · intro servingsArg addOk
    constructor
    · simp [addRecipeToCart, hfind, recipeNotFoundMsg, recipeNotFoundHint]
    · simpa [addRecipeToCart, hfind] using hreads

/-- Witness for C7: an empty discovered sequence has no recipe `nope`. -/
theorem recipe_not_found_witness :
    (∀ r ∈ (fetchRecipes { data := none, timestamp := 0 } 0 []).1, r.recipe_id ≠ "nope")
    ∧ ((getRecipeDetails { data := none, timestamp := 0 } 0 [] "nope").1 =
        .notFound ("Recipe '" ++ "nope" ++ "' not found")
          "Use picnic_get_recipes to find valid recipe IDs."
      ∧ ((getRecipeDetails { data := none, timestamp := 0 } 0 [] "nope").2.2).filter
          ExtCall.isWrite = []
      ∧ (∀ servingsArg addOk,
          (addRecipeToCart { data := none, timestamp := 0 } 0 [] "nope" servingsArg addOk).1 =
            .notFound ("Recipe '" ++ "nope" ++ "' not found")
              "Use picnic_get_recipes to find valid recipe IDs."
          ∧ ((addRecipeToCart { data := none, timestamp := 0 } 0 [] "nope" servingsArg
                addOk).2.2).filter ExtCall.isWrite = [])) :=
  ⟨by intro r hr; simp [fetchRecipes] at hr,
   recipe_not_found { data := none, timestamp := 0 } 0 [] "nope"
     (by intro r hr; simp [fetchRecipes] at hr)⟩

/-- When every effective add call is accepted, the per-ingredient loop
returns the three classification lists and issues exactly one add call per
effective ingredient, in source order. -/
theorem addLoop_all_accepted (addOk : String → ℤ → Bool) (scale : ℚ)
    (ings : List RecipeIngredient)
    (h : ∀ x ∈ effectiveAdds scale ings, addOk x.2.1 x.2.2 = true) :
    addLoop addOk scale ings =
      (.ok ((effectiveAdds scale ings).map (fun x => (x.1, x.2.2)),
            cupboardNames ings, unavailableNames ings),
       (effectiveAdds scale ings).map (fun x => ExtCall.addToCart x.2.1 x.2.2)) := by
  induction ings with
  | nil => simp [addLoop, effectiveAdds, cupboardNames, unavailableNames]
  | cons ing rest ih =>
    rw [addLoop]
    by_cases h1 : ing.ingredient_type = "CUPBOARD"
    · have he : effectiveAdds scale (ing :: rest) = effectiveAdds scale rest := by
        simp [effectiveAdds, List.filterMap_cons, h1]
      have hc : cupboardNames (ing :: rest) = ing.name :: cupboardNames rest := by
        simp [cupboardNames, List.filter_cons, h1]
      have hu : unavailableNames (ing :: rest) = unavailableNames rest := by
        simp [unavailableNames, List.filter_cons, h1]
      rw [he] at h
      rw [if_pos h1, ih h, he, hc, hu]
    · by_cases h2 : ing.availability_status ≠ "AVAILABLE"
      · have he : effectiveAdds scale (ing :: rest) = effectiveAdds scale rest := by
          simp [effectiveAdds, List.filterMap_cons, h1, h2]
        have hc : cupboardNames (ing :: rest) = cupboardNames rest := by
          simp [cupboardNames, List.filter_cons, h1]
        have hu : unavailableNames (ing :: rest) = ing.name :: unavailableNames rest := by
          simp [unavailableNames, List.filter_cons, h1, h2]
        rw [he] at h
        rw [if_neg h1, if_pos h2, ih h, he, hc, hu]
      · have h2e : ing.availability_status = "AVAILABLE" := not_not.mp h2
        have he : effectiveAdds scale (ing :: rest) =
            (ing.name, ing.selling_unit_id, ⌈ing.selling_unit_quantity * scale⌉) ::
              effectiveAdds scale rest := by
          simp [effectiveAdds, List.filterMap_cons, h1, h2e]
        have hc : cupboardNames (ing :: rest) = cupboardNames rest := by
          simp [cupboardNames, List.filter_cons, h1]
        have hu : unavailableNames (ing :: rest) = unavailableNames rest := by
          simp [unavailableNames, List.filter_cons, h1, h2]
        rw [he] at h
        have hok := h _ (List.mem_cons_self _ _)
        have hrest : ∀ x ∈ effectiveAdds scale rest, addOk x.2.1 x.2.2 = true :=
          fun x hx => h x (List.mem_cons_of_mem _ hx)
        rw [if_neg h1, if_neg h2, if_pos hok, ih hrest, he, hc, hu]
        simp

/-- When the first rejected effective add call is reached, the loop aborts:
it propagates the fault, keeps no result lists, and its trace is the accepted
prefix of add calls followed by the rejected call — nothing after it. -/
theorem addLoop_first_rejected (addOk : String → ℤ → Bool) (scale : ℚ)
    (ings : List RecipeIngredient) (pre : List (String × String × ℤ))
    (nm id : String) (q : ℤ) (post : List (String × String × ℤ))
    (hsplit : effectiveAdds scale ings = pre ++ (nm, id, q) :: post)
    (hpre : ∀ x ∈ pre, addOk x.2.1 x.2.2 = true)
    (hfail : addOk id q = false) :
    addLoop addOk scale ings =
      (.error (id, q),
       pre.map (fun x => ExtCall.addToCart x.2.1 x.2.2) ++ [ExtCall.addToCart id q]) := by
  induction ings generalizing pre with
  | nil => simp [effectiveAdds] at hsplit
  | cons ing rest ih =>
    rw [addLoop]
    by_cases h1 : ing.ingredient_type = "CUPBOARD"
    · have he : effectiveAdds scale (ing :: rest) = effectiveAdds scale rest := by
        simp [effectiveAdds, List.filterMap_cons, h1]
      rw [he] at hsplit
      rw [if_pos h1, ih pre hsplit hpre]
    · by_cases h2 : ing.availability_status ≠ "AVAILABLE"
      · have he : effectiveAdds scale (ing :: rest) = effectiveAdds scale rest := by
          simp [effectiveAdds, List.filterMap_cons, h1, h2]
        rw [he] at hsplit
        rw [if_neg h1, if_pos h2, ih pre hsplit hpre]
      · have h2e : ing.availability_status = "AVAILABLE" := not_not.mp h2
        have he : effectiveAdds scale (ing :: rest) =
            (ing.name, ing.selling_unit_id, ⌈ing.selling_unit_quantity * scale⌉) ::
              effectiveAdds scale rest := by
          simp [effectiveAdds, List.filterMap_cons, h1, h2e]
        rw [he] at hsplit
        rcases pre with _ | ⟨p0, pre'⟩
        · simp at hsplit
          obtain ⟨⟨hnm, hid, hq⟩, -⟩ := hsplit
          rw [if_neg h1, if_neg h2, hid, hq, if_neg (by simp [hfail])]
          simp [hid, hq]
        · simp at hsplit
          obtain ⟨hp0, hrest⟩ := hsplit
          have hok : addOk ing.selling_unit_id ⌈ing.selling_unit_quantity * scale⌉ = true := by
            have := hpre p0 (List.mem_cons_self _ _)
            rw [← hp0] at this
            simpa using this
          have hpre' : ∀ x ∈ pre', addOk x.2.1 x.2.2 = true :=
            fun x hx => hpre x (List.mem_cons_of_mem _ hx)
          rw [if_neg h1, if_neg h2, if_pos hok, ih pre' hrest hpre']
          simp [← hp0]

/-- Projecting the effective-add list to `(name, quantity)` pairs gives the
`added` entries as a filter-map over the ingredients. -/
theorem effectiveAdds_map_added (scale : ℚ) (ings : List RecipeIngredient) :
    (effectiveAdds scale ings).map (fun x => (x.1, x.2.2)) =
      ings.filterMap (fun i =>
        if i.ingredient_type = "CUPBOARD" then none
        else if i.availability_status ≠ "AVAILABLE" then none
        else some (i.name, ⌈i.selling_unit_quantity * scale⌉)) := by
  rw [effectiveAdds, List.map_filterMap]
  congr 1
  funext i
  split_ifs <;> rfl

/-- Projecting the effective-add list to external calls gives the add-call
trace as a filter-map over the ingredients. -/
theorem effectiveAdds_map_calls (scale : ℚ) (ings : List RecipeIngredient) :
    (effectiveAdds scale ings).map (fun x => ExtCall.addToCart x.2.1 x.2.2) =
      ings.filterMap (fun i =>
        if i.ingredient_type = "CUPBOARD" then none
        else if i.availability_status ≠ "AVAILABLE" then none
        else some (ExtCall.addToCart i.selling_unit_id ⌈i.selling_unit_quantity * scale⌉)) := by
  rw [effectiveAdds, List.map_filterMap]
  congr 1
  funext i
  split_ifs <;> rfl

/-- C3: when the recipe is found, its `default_servings` is nonzero and no
add call is rejected, `picnic_add_recipe_to_cart` processes the ingredients
in source order — `CUPBOARD` ones to the cupboard-skip list with no call,
non-`AVAILABLE` ones to the unavailable list with no call, and each remaining
one to exactly one add call with quantity
`⌈selling_unit_quantity * servings / default_servings⌉` — and reports the
recipe name, the resolved serving count (the recipe's default when the
argument is omitted), the added items with their final quantities, and both
skip lists. -/
theorem add_recipe_scaling (cache : RecipeCache) (now : ℤ) (discovered : List Recipe)
    (recipe_id : String) (servingsArg : Option ℚ) (addOk : String → ℤ → Bool) (r : Recipe)
    (hfind : ((fetchRecipes cache now discovered).1).find?
        (fun x => x.recipe_id == recipe_id) = some r)
    (hds : r.default_servings ≠ 0)
    (hok : ∀ id q, addOk id q = true) :
    addRecipeToCart cache now discovered recipe_id servingsArg addOk =
      (.ok { recipe_name := r.name
             servings := servingsArg.getD r.default_servings
             added := r.ingredients.filterMap (fun i =>
               if i.ingredient_type = "CUPBOARD" then none
               else if i.availability_status ≠ "AVAILABLE" then none
               else some (i.name,
                 ⌈i.selling_unit_quantity * (servingsArg.getD r.default_servings) /
                    r.default_servings⌉))
             skipped_cupboard := cupboardNames r.ingredients
             unavailable := unavailableNames r.ingredients },
       (fetchRecipes cache now discovered).2.1,
       (fetchRecipes cache now discovered).2.2 ++
         r.ingredients.filterMap (fun i =>
           if i.ingredient_type = "CUPBOARD" then none
           else if i.availability_status ≠ "AVAILABLE" then none
           else some (ExtCall.addToCart i.selling_unit_id
             ⌈i.selling_unit_quantity * (servingsArg.getD r.default_servings) /
                r.default_servings⌉)))
    ∧ (servingsArg = none →
        servingsArg.getD r.default_servings / r.default_servings = 1) := by
  have hsc : ∀ i : RecipeIngredient,
      i.selling_unit_quantity * (servingsArg.getD r.default_servings / r.default_servings) =
        i.selling_unit_quantity * (servingsArg.getD r.default_servings) /
          r.default_servings := by
    intro i
    rw [mul_div_assoc]
  have hloop := addLoop_all_accepted addOk
    ((servingsArg.getD r.default_servings) / r.default_servings) r.ingredients
    (fun x _ => hok x.2.1 x.2.2)
  constructor
  · simp only [addRecipeToCart, hfind, hloop, effectiveAdds_map_added, effectiveAdds_map_calls,
      mul_div_assoc]
  · rintro rfl
    exact div_self hds

/-- A `CUPBOARD` ingredient (never ordered). -/
def ingSalt : RecipeIngredient :=
  { selling_unit_id := "p-salt", name := "Salt", ingredient_type := "CUPBOARD",
    display_ingredient_quantity := 1, display_unit_of_measurement := "tsp",
    selling_unit_quantity := 1, availability_status := "AVAILABLE" }

/-- A non-available `CORE` ingredient. -/
def ingOos : RecipeIngredient :=
  { selling_unit_id := "p-oos", name := "Tofu", ingredient_type := "CORE",
    display_ingredient_quantity := 1, display_unit_of_measurement := "pc",
    selling_unit_quantity := 1, availability_status := "OUT_OF_STOCK" }

/-- A first orderable `CORE` ingredient. -/
def ingA : RecipeIngredient :=
  { selling_unit_id := "pf1", name := "Beans", ingredient_type := "CORE",
    display_ingredient_quantity := 2, display_unit_of_measurement := "pc",
    selling_unit_quantity := 2, availability_status := "AVAILABLE" }

/-- A second orderable `CORE` ingredient, after the first in source order. -/
def ingB : RecipeIngredient :=
  { selling_unit_id := "pf2", name := "Rice", ingredient_type := "CORE",
    display_ingredient_quantity := 3, display_unit_of_measurement := "pc",
    selling_unit_quantity := 3, availability_status := "AVAILABLE" }

/-- A concrete recipe with one cupboard, one unavailable and two orderable
ingredients, default servings 1. -/
def testRecipe : Recipe :=
  { recipe_id := "r1", name := "Test Bowl", description := "", course := "",
    kitchen := "", is_vega_vegan := "", recipe_type := "",
    default_servings := 1, minimum_servings := 1, maximum_servings := 4,
    serving_step := 1, active_preparation_time_in_minutes := 20,
    quality_cue := "", display_label := none,
    ingredients := [ingSalt, ingOos, ingA, ingB],
    preparation_instructions := [], images := none }

/-- Witness for C3 at `testRecipe` with the servings argument omitted. -/
theorem add_recipe_scaling_witness :
    ((((fetchRecipes { data := none, timestamp := 0 } 0 [testRecipe]).1).find?
        (fun x => x.recipe_id == "r1") = some testRecipe)
      ∧ testRecipe.default_servings ≠ 0
      ∧ (∀ id q, (fun (_ : String) (_ : ℤ) => true) id q = true))
    ∧ (addRecipeToCart { data := none, timestamp := 0 } 0 [testRecipe] "r1" none
          (fun _ _ => true) =
        (.ok { recipe_name := testRecipe.name
               servings := (none : Option ℚ).getD testRecipe.default_servings
               added := testRecipe.ingredients.filterMap (fun i =>
                 if i.ingredient_type = "CUPBOARD" then none
                 else if i.availability_status ≠ "AVAILABLE" then none
                 else some (i.name,
                   ⌈i.selling_unit_quantity *
                       ((none : Option ℚ).getD testRecipe.default_servings) /
                      testRecipe.default_servings⌉))
               skipped_cupboard := cupboardNames testRecipe.ingredients
               unavailable := unavailableNames testRecipe.ingredients },
         (fetchRecipes { data := none, timestamp := 0 } 0 [testRecipe]).2.1,
         (fetchRecipes { data := none, timestamp := 0 } 0 [testRecipe]).2.2 ++
           testRecipe.ingredients.filterMap (fun i =>
             if i.ingredient_type = "CUPBOARD" then none
             else if i.availability_status ≠ "AVAILABLE" then none
             else some (ExtCall.addToCart i.selling_unit_id
               ⌈i.selling_unit_quantity *
                   ((none : Option ℚ).getD testRecipe.default_servings) /
                  testRecipe.default_servings⌉)))
      ∧ ((none : Option ℚ) = none →
          (none : Option ℚ).getD testRecipe.default_servings /
            testRecipe.default_servings = 1)) :=
  ⟨⟨rfl, by simp [testRecipe], fun _ _ => rfl⟩,
   add_recipe_scaling { data := none, timestamp := 0 } 0 [testRecipe] "r1" none
     (fun _ _ => true) testRecipe rfl (by simp [testRecipe]) (fun _ _ => rfl)⟩

/-- C1 amended: a failure of an individual ingredient's add-to-cart call is
NOT caught by `picnic_add_recipe_to_cart`: the fault propagates out of the
handler, the remaining ingredients are not attempted, and the partial lists
are lost — the trace is the accepted prefix of add calls followed by the
rejected call and nothing else. -/
theorem add_recipe_failure_propagates (cache : RecipeCache) (now : ℤ)
    (discovered : List Recipe) (recipe_id : String) (servingsArg : Option ℚ)
    (addOk : String → ℤ → Bool) (r : Recipe) (pre : List (String × String × ℤ))
    (nm id : String) (q : ℤ) (post : List (String × String × ℤ))
    (hfind : ((fetchRecipes cache now discovered).1).find?
        (fun x => x.recipe_id == recipe_id) = some r)
    (hsplit : effectiveAdds ((servingsArg.getD r.default_servings) / r.default_servings)
        r.ingredients = pre ++ (nm, id, q) :: post)
    (hpre : ∀ x ∈ pre, addOk x.2.1 x.2.2 = true)
    (hfail : addOk id q = false) :
    addRecipeToCart cache now discovered recipe_id servingsArg addOk =
      (.fault id q,
       (fetchRecipes cache now discovered).2.1,
       (fetchRecipes cache now discovered).2.2 ++
         (pre.map (fun x => ExtCall.addToCart x.2.1 x.2.2) ++ [ExtCall.addToCart id q])) := by
  have hloop := addLoop_first_rejected addOk
    ((servingsArg.getD r.default_servings) / r.default_servings) r.ingredients
    pre nm id q post hsplit hpre hfail
  simp only [addRecipeToCart, hfind, hloop]

/-- Witness for C1's amended claim: at `testRecipe`, the first effective add
is rejected and the loop aborts there. -/
theorem add_recipe_failure_propagates_witness :
    ((((fetchRecipes { data := none, timestamp := 0 } 0 [testRecipe]).1).find?
        (fun x => x.recipe_id == "r1") = some testRecipe)
      ∧ effectiveAdds (((none : Option ℚ).getD testRecipe.default_servings) /
            testRecipe.default_servings) testRecipe.ingredients =
          [] ++ ("Beans", "pf1", 2) :: [("Rice", "pf2", 3)]
      ∧ (∀ x ∈ ([] : List (String × String × ℤ)),
          (fun (_ : String) (_ : ℤ) => false) x.2.1 x.2.2 = true)
      ∧ (fun (_ : String) (_ : ℤ) => false) "pf1" 2 = false)
    ∧ addRecipeToCart { data := none, timestamp := 0 } 0 [testRecipe] "r1" none
        (fun _ _ => false) =
      (.fault "pf1" 2,
       (fetchRecipes { data := none, timestamp := 0 } 0 [testRecipe]).2.1,
       (fetchRecipes { data := none, timestamp := 0 } 0 [testRecipe]).2.2 ++
         (([] : List (String × String × ℤ)).map (fun x => ExtCall.addToCart x.2.1 x.2.2) ++
           [ExtCall.addToCart "pf1" 2])) :=
  ⟨⟨rfl,
    by simp [effectiveAdds, testRecipe, ingSalt, ingOos, ingA, ingB],
    by simp, rfl⟩,
   add_recipe_failure_propagates { data := none, timestamp := 0 } 0 [testRecipe] "r1" none
     (fun _ _ => false) testRecipe [] "Beans" "pf1" 2 [("Rice", "pf2", 3)] rfl
     (by simp [effectiveAdds, testRecipe, ingSalt, ingOos, ingA, ingB])
     (by simp) rfl⟩

/-- Counterexample for C1 as stated: with every add call rejected, the
handler's outcome on `testRecipe` is the propagated fault of the first
effective ingredient — no failure record, no continuation over the remaining
ingredient (`pf2` is never attempted), and no partial result. -/
theorem add_recipe_failure_counterexample :
    addRecipeToCart { data := none, timestamp := 0 } 0 [testRecipe] "r1" none
        (fun _ _ => false) =
      (.fault "pf1" 2, { data := some [testRecipe], timestamp := 0 },
       [.fetchMealPlanner, .addToCart "pf1" 2]) := by
  have hloop := addLoop_first_rejected (fun _ _ => false)
    (((none : Option ℚ).getD testRecipe.default_servings) / testRecipe.default_servings)
    testRecipe.ingredients [] "Beans" "pf1" 2 [("Rice", "pf2", 3)]
    (by simp [effectiveAdds, testRecipe, ingSalt, ingOos, ingA, ingB])
    (by simp) rfl
  simp only [addRecipeToCart]
  rw [show ((fetchRecipes { data := none, timestamp := 0 } 0 [testRecipe]).1).find?
      (fun x => x.recipe_id == "r1") = some testRecipe from rfl]
  simp only [hloop]
  simp [fetchRecipes]

/-! ### Tree-search support lemmas (C5) -/

/-- Traversing an object's values is traversing the list of its values. -/
theorem extractRecipesFields_eq (fs : List (String × JValue)) :
    extractRecipesFields fs = extractRecipesList (fs.map Prod.snd) := by
  induction fs with
  | nil => simp [extractRecipesFields, extractRecipesList]
  | cons p fs ih =>
    cases p with
    | mk s v => simp [extractRecipesFields, extractRecipesList, ih]

/-- The traversal in terms of the shape predicate and the child list: a
matching node is returned as a leaf, any other node is the concatenation of
its children's traversals. -/
theorem extractRecipes_uniform (v : JValue) :
    extractRecipes v =
      if isRecipeShaped v then [v] else extractRecipesList (childList v) := by
  cases v with
  | jnull => simp [extractRecipes, isRecipeShaped, childList, extractRecipesList]
  | jbool b => simp [extractRecipes, isRecipeShaped, childList, extractRecipesList]
  | jnum q => simp [extractRecipes, isRecipeShaped, childList, extractRecipesList]
  | jstr s => simp [extractRecipes, isRecipeShaped, childList, extractRecipesList]
  | jarr elems => simp [extractRecipes, isRecipeShaped, childList]
  | jobj fields =>
    simp only [extractRecipes, isRecipeShaped, childList, extractRecipesFields_eq]

/-- Collected paths of an object's values are those of the value list. -/
theorem outPosFields_eq (i : Nat) (fs : List (String × JValue)) :
    outPosFields i fs = outPosList i (fs.map Prod.snd) := by
  induction fs generalizing i with
  | nil => simp [outPosFields, outPosList]
  | cons p fs ih =>
    cases p with
    | mk s v => simp [outPosFields, outPosList, ih]

/-- The collected paths in terms of the shape predicate and the child list. -/
theorem outPos_uniform (v : JValue) :
    outPos v = if isRecipeShaped v then [[]] else outPosList 0 (childList v) := by
  cases v with
  | jnull => simp [outPos, isRecipeShaped, childList, outPosList]
  | jbool b => simp [outPos, isRecipeShaped, childList, outPosList]
  | jnum q => simp [outPos, isRecipeShaped, childList, outPosList]
  | jstr s => simp [outPos, isRecipeShaped, childList, outPosList]
  | jarr elems => simp [outPos, isRecipeShaped, childList]
  | jobj fields => simp only [outPos, childList, outPosFields_eq]

/-- One step of `subtreeAt`. -/
theorem subtreeAt_cons (v : JValue) (i : Nat) (p : List Nat) :
    subtreeAt v (i :: p) = ((childList v)[i]?).bind (fun c => subtreeAt c p) := by
  cases h : (childList v)[i]? <;> simp [subtreeAt, h]

/-- `matchesAt` at the empty path is the shape predicate. -/
theorem matchesAt_nil (v : JValue) : matchesAt v [] = isRecipeShaped v := rfl

/-- One step of `matchesAt`. -/
theorem matchesAt_cons (v : JValue) (i : Nat) (p : List Nat) :
    matchesAt v (i :: p) =
      match (childList v)[i]? with
      | some c => matchesAt c p
      | none => false := by
  cases h : (childList v)[i]? <;> simp [matchesAt, subtreeAt_cons, h]

/-- Each child is structurally smaller than its parent. -/
theorem sizeOf_lt_of_mem_childList {c v : JValue} (h : c ∈ childList v) :
    sizeOf c < sizeOf v := by
  cases v with
  | jnull => simp [childList] at h
  | jbool b => simp [childList] at h
  | jnum q => simp [childList] at h
  | jstr s => simp [childList] at h
  | jarr elems =>
    simp only [childList] at h
    have := List.sizeOf_lt_of_mem h
    simp only [JValue.jarr.sizeOf_spec]
    omega
  | jobj fields =>
    simp only [childList] at h
    obtain ⟨⟨s, w⟩, hmem, rfl⟩ := List.mem_map.mp h
    have h1 := List.sizeOf_lt_of_mem hmem
    have h2 : sizeOf w < sizeOf (s, w) := by
      simp only [Prod.mk.sizeOf_spec]
      omega
    simp only [JValue.jobj.sizeOf_spec]
    omega

/-- Membership in `outPosList`: a path collected from the elements `vs` with
indices starting at `i0` is an index `i0 + j` consed onto a path collected
from the `j`-th element. -/
theorem mem_outPosList {p : List Nat} {i0 : Nat} {vs : List JValue} :
    p ∈ outPosList i0 vs ↔
      ∃ j c p', vs[j]? = some c ∧ p' ∈ outPos c ∧ p = (i0 + j) :: p' := by
  induction vs generalizing i0 with
  | nil => simp [outPosList]
  | cons v vs ih =>
    simp only [outPosList, List.mem_append, List.mem_map, ih]
    constructor
    · rintro (⟨p', hp', rfl⟩ | ⟨j, c, p', hj, hp', rfl⟩)
      · exact ⟨0, v, p', by simp, hp', by simp⟩
      · exact ⟨j + 1, c, p', by simpa using hj, hp', by ring_nf⟩
    · rintro ⟨j, c, p', hj, hp', rfl⟩
      cases j with
      | zero =>
        simp only [List.getElem?_cons_zero, Option.some.injEq] at hj
        exact Or.inl ⟨p', hj ▸ hp', by simp⟩
      | succ j =>
        refine Or.inr ⟨j, c, p', by simpa using hj, hp', by ring_nf⟩

/-- Only the empty path is a prefix of the empty path. -/
theorem isPre_nil_iff (q : List Nat) : isPre q [] = true ↔ q = [] := by
  cases q <;> simp [isPre]

/-- Prefixes of a nonempty path: the empty path, or the same head and a
prefix of the tail. -/
theorem isPre_cons_cons (j i : Nat) (q p : List Nat) :
    isPre (j :: q) (i :: p) = true ↔ j = i ∧ isPre q p = true := by
  simp [isPre]

/-- C5 support: every path collected by the traversal addresses a matching
node none of whose proper ancestors matches (the traversal never recurses
into a matched node). -/
theorem outPos_outermost (v : JValue) :
    ∀ p ∈ outPos v, matchesAt v p = true ∧
      ∀ q, isPre q p = true → q ≠ p → matchesAt v q = false := by
  suffices H : ∀ n, ∀ v : JValue, sizeOf v ≤ n →
      ∀ p ∈ outPos v, matchesAt v p = true ∧
        ∀ q, isPre q p = true → q ≠ p → matchesAt v q = false by
    exact H (sizeOf v) v le_rfl
  intro n
  induction n with
  | zero =>
    intro v hv
    exfalso
    have : 0 < sizeOf v := by cases v <;> simp
    omega
  | succ n ih =>
    intro v hv p hp
    rw [outPos_uniform] at hp
    by_cases hshape : isRecipeShaped v = true
    · rw [if_pos hshape] at hp
      simp only [List.mem_singleton] at hp
      subst hp
      refine ⟨by rwa [matchesAt_nil], ?_⟩
      intro q hq hne
      exact absurd ((isPre_nil_iff q).mp hq) hne
    · rw [if_neg hshape, mem_outPosList] at hp
      obtain ⟨j, c, p', hj, hp', rfl⟩ := hp
      have hcm : c ∈ childList v := List.getElem?_mem hj
      have hcs : sizeOf c ≤ n := by
        have := sizeOf_lt_of_mem_childList hcm
        omega
      obtain ⟨hm, houter⟩ := ih c hcs p' hp'
      constructor
      · simp only [Nat.zero_add, matchesAt_cons, hj]
        exact hm
      · intro q hq hne
        cases q with
        | nil =>
          rw [matchesAt_nil, ← Bool.not_eq_true]
          exact hshape
        | cons j' q' =>
          simp only [Nat.zero_add] at hq hne ⊢
          rw [isPre_cons_cons] at hq
          obtain ⟨rfl, hq'⟩ := hq
          have hne' : q' ≠ p' := by
            intro hEq
            exact hne (by rw [hEq])
          simp only [matchesAt_cons, hj]
          exact houter q' hq' hne'

/-- C5 support: every matching node is addressed through a collected path
(each match is inside — or is — a returned node): the collected set is
maximal. -/
theorem outPos_covers (v : JValue) :
    ∀ p, matchesAt v p = true → ∃ q, q ∈ outPos v ∧ isPre q p = true := by
  suffices H : ∀ n, ∀ v : JValue, sizeOf v ≤ n →
      ∀ p, matchesAt v p = true → ∃ q, q ∈ outPos v ∧ isPre q p = true by
    exact H (sizeOf v) v le_rfl
  intro n
  induction n with
  | zero =>
    intro v hv
    exfalso
    have : 0 < sizeOf v := by cases v <;> simp
    omega
  | succ n ih =>
    intro v hv p hm
    by_cases hshape : isRecipeShaped v = true
    · refine ⟨[], ?_, rfl⟩
      rw [outPos_uniform, if_pos hshape]
      simp
    · cases p with
      | nil =>
        rw [matchesAt_nil] at hm
        exact absurd hm hshape
      | cons j p' =>
        rw [matchesAt_cons] at hm
        cases hj : (childList v)[j]? with
        | none => rw [hj] at hm; cases hm
        | some c =>
          rw [hj] at hm
          have hcm : c ∈ childList v := List.getElem?_mem hj
          have hcs : sizeOf c ≤ n := by
            have := sizeOf_lt_of_mem_childList hcm
            omega
          obtain ⟨q', hq', hqpre⟩ := ih c hcs p' hm
          refine ⟨j :: q', ?_, ?_⟩
          · rw [outPos_uniform, if_neg hshape, mem_outPosList]
            exact ⟨j, c, q', hj, hq', by simp⟩
          · rw [isPre_cons_cons]
            exact ⟨rfl, hqpre⟩

/-- C5 support, list level: looking up the collected paths of the elements
`vs` (which sit at child indices `i0, i0+1, …` of `v`) recovers exactly the
traversal of those elements, in order. -/
theorem outPosList_filterMap (v : JValue) (vs : List JValue) (i0 : Nat)
    (hlink : ∀ j, vs[j]? = (childList v)[i0 + j]?)
    (IH : ∀ c ∈ vs, extractRecipes c = (outPos c).filterMap (subtreeAt c)) :
    (outPosList i0 vs).filterMap (subtreeAt v) = extractRecipesList vs := by
  induction vs generalizing i0 with
  | nil => simp [outPosList, extractRecipesList]
  | cons c cs ihl =>
    have hc : (childList v)[i0]? = some c := by
      have := hlink 0
      simpa using this.symm
    have hfun : (fun p => subtreeAt v (i0 :: p)) = (fun p => subtreeAt c p) := by
      funext p
      rw [subtreeAt_cons, hc]
      rfl
    have hlink' : ∀ j, cs[j]? = (childList v)[(i0 + 1) + j]? := by
      intro j
      have := hlink (j + 1)
      simpa [Nat.add_assoc, Nat.add_comm 1 j] using this
    have IH' : ∀ c' ∈ cs, extractRecipes c' = (outPos c').filterMap (subtreeAt c') :=
      fun c' hc' => IH c' (List.mem_cons_of_mem _ hc')
    simp only [outPosList, extractRecipesList, List.filterMap_append, List.filterMap_map]
    rw [ihl (i0 + 1) hlink' IH']
    congr 1
    have : (subtreeAt v ∘ fun p => i0 :: p) = (fun p => subtreeAt c p) := by
      funext p
      simp only [Function.comp]
      rw [subtreeAt_cons, hc]
      rfl
    rw [this, ← IH c (List.mem_cons_self _ _)]

/-- C5 support: the traversal's results are exactly the subtrees at the
collected paths, in the collected order. -/
theorem extractRecipes_eq_outPos (v : JValue) :
    extractRecipes v = (outPos v).filterMap (subtreeAt v) := by
  suffices H : ∀ n, ∀ v : JValue, sizeOf v ≤ n →
      extractRecipes v = (outPos v).filterMap (subtreeAt v) by
    exact H (sizeOf v) v le_rfl
  intro n
  induction n with
  | zero =>
    intro v hv
    exfalso
    have : 0 < sizeOf v := by cases v <;> simp
    omega
  | succ n ih =>
    intro v hv
    rw [extractRecipes_uniform, outPos_uniform]
    by_cases hshape : isRecipeShaped v = true
    · rw [if_pos hshape, if_pos hshape]
      simp [subtreeAt]
    · rw [if_neg hshape, if_neg hshape]
      refine (outPosList_filterMap v (childList v) 0 (fun j => by simp) ?_).symm
      intro c hc
      have hcs : sizeOf c ≤ n := by
        have := sizeOf_lt_of_mem_childList hc
        omega
      exact ih c hcs

/-- A path is strictly before any path led by a larger head index. -/
theorem pathLt_head_lt (i j : Nat) (p q : List Nat) (h : i < j) :
    pathLt (i :: p) (j :: q) = true := by
  simp [pathLt, h]

/-- Prefixing both paths with the same index preserves the strict order. -/
theorem pathLt_cons_same (i : Nat) (p q : List Nat) (h : pathLt p q = true) :
    pathLt (i :: p) (i :: q) = true := by
  simp [pathLt, h]

/-- C5 support, list level: collected paths come out in strict depth-first
order. -/
theorem outPosList_pairwise (i0 : Nat) (vs : List JValue)
    (IH : ∀ c ∈ vs, List.Pairwise (fun p q => pathLt p q = true) (outPos c)) :
    List.Pairwise (fun p q => pathLt p q = true) (outPosList i0 vs) := by
  induction vs generalizing i0 with
  | nil => simp [outPosList]
  | cons c cs ihl =>
    simp only [outPosList]
    rw [List.pairwise_append]
    refine ⟨?_, ihl (i0 + 1) (fun c' hc' => IH c' (List.mem_cons_of_mem _ hc')), ?_⟩
    · rw [List.pairwise_map]
      exact (IH c (List.mem_cons_self _ _)).imp (fun h => pathLt_cons_same i0 _ _ h)
    · intro a ha b hb
      obtain ⟨p, hp, rfl⟩ := List.mem_map.mp ha
      rw [mem_outPosList] at hb
      obtain ⟨j, c', p', hj, hp', rfl⟩ := hb
      exact pathLt_head_lt i0 ((i0 + 1) + j) p p' (by omega)

/-- C5 support: the collected paths are in strict depth-first order (so the
result list is deterministic and duplicate-free as a path set). -/
theorem outPos_sorted (v : JValue) :
    List.Pairwise (fun p q => pathLt p q = true) (outPos v) := by
  suffices H : ∀ n, ∀ v : JValue, sizeOf v ≤ n →
      List.Pairwise (fun p q => pathLt p q = true) (outPos v) by
    exact H (sizeOf v) v le_rfl
  intro n
  induction n with
  | zero =>
    intro v hv
    exfalso
    have : 0 < sizeOf v := by cases v <;> simp
    omega
  | succ n ih =>
    intro v hv
    rw [outPos_uniform]
    by_cases hshape : isRecipeShaped v = true
    · rw [if_pos hshape]
      simp
    · rw [if_neg hshape]
      refine outPosList_pairwise 0 (childList v) ?_
      intro c hc
      have hcs : sizeOf c ≤ n := by
        have := sizeOf_lt_of_mem_childList hc
        omega
      exact ih c hcs

/-- C5: for every input value graph, `extractRecipes` returns exactly the
maximal set of non-overlapping (non-nested-within-each-other) nodes
satisfying the recipe-shape predicate, in depth-first order — the results
are the subtrees at the collected paths, each collected path addresses a
match with no matching proper ancestor (a matched node's children are never
entered), every match lies at or below some collected path, distinct
collected paths never nest, the collected paths are strictly
depth-first-ordered, and with no match anywhere the result is empty (the
traversal never fails). -/
theorem extractRecipes_outermost_matches (v : JValue) :
    extractRecipes v = (outPos v).filterMap (subtreeAt v)
    ∧ (∀ p ∈ outPos v, matchesAt v p = true ∧
        ∀ q, isPre q p = true → q ≠ p → matchesAt v q = false)
    ∧ (∀ p, matchesAt v p = true → ∃ q, q ∈ outPos v ∧ isPre q p = true)
    ∧ (∀ p ∈ outPos v, ∀ q ∈ outPos v, p ≠ q → isPre p q = false)
    ∧ List.Pairwise (fun p q => pathLt p q = true) (outPos v)
    ∧ ((∀ p, matchesAt v p = false) → extractRecipes v = []) := by
  refine ⟨extractRecipes_eq_outPos v, outPos_outermost v, outPos_covers v, ?_,
    outPos_sorted v, ?_⟩
  · intro p hp q hq hne
    by_contra hcon
    rw [Bool.not_eq_false] at hcon
    have hqm := (outPos_outermost v q hq).2 p hcon hne
    have hpm := (outPos_outermost v p hp).1
    rw [hpm] at hqm
    exact Bool.noConfusion hqm
  · intro hnone
    rw [extractRecipes_eq_outPos v]
    cases hout : outPos v with
    | nil => simp
    | cons p ps =>
      exfalso
      have hp : p ∈ outPos v := by
        rw [hout]
        exact List.mem_cons_self _ _
      have hpm := (outPos_outermost v p hp).1
      rw [hnone p] at hpm
      exact Bool.noConfusion hpm

/-- Witness for C5: a scalar payload matches nowhere and yields the empty
sequence. -/
theorem extractRecipes_outermost_matches_witness :
    (∀ p, matchesAt (JValue.jnum 5) p = false)
    ∧ extractRecipes (JValue.jnum 5) = [] :=
  ⟨fun p => by cases p <;> simp [matchesAt, subtreeAt, childList, isRecipeShaped],
   (extractRecipes_outermost_matches (JValue.jnum 5)).2.2.2.2.2
     (fun p => by cases p <;> simp [matchesAt, subtreeAt, childList, isRecipeShaped])⟩

/-- C6 (the guard the spec requires is absent): the recursion of
`extractRecipes`, run over a payload containing a reference cycle, exhausts
every recursion budget — there is no depth bound or visited-set guard, so a
cyclic payload makes the traversal recurse without bound. -/
theorem extract_cycle_diverges : divergesOn cyclicStore 0 := by
  intro fuel
  induction fuel with
  | zero => simp [extractG]
  | succ n ih =>
    simp only [cyclicStore] at ih ⊢
    simp [extractG, extractGList, gRecipeShaped, List.lookup, ih]

end Picnic
